import Mathlib

/-!
Shallow embedding of the World Politics News API backend
(`src/main.py`, `src/schemas.py`).

Modelling conventions:
* Document ids (`bson.ObjectId`) are abstracted as `Nat`; id well-formedness
  (24-hex validation) is outside the claims settled here.
* Timestamps (`datetime` values and their ISO-8601 string forms) are abstracted
  as `Nat`; ISO-8601 ordering corresponds to numeric ordering, and
  `datetime.now(timezone.utc)` at request time is an explicit `now` parameter.
* A Mongo collection is a list of records; `find_one`/`update_one`/`delete_one`
  act on the first record matching the filter, exactly as Mongo does.
* An HTTP error response is an `HTTPExc` (status plus detail string).  Every
  handler body in `main.py` runs inside `try: ... except Exception as e:
  raise HTTPException(400, str(e))`; since `HTTPException` is an `Exception`,
  an `HTTPException` raised inside the `try` is caught and re-raised with
  status 400 and detail `str(e) = "<status>: <detail>"`.  `wrapTry` models
  exactly that re-wrapping.
-/

deriving instance DecidableEq for Except

namespace NewsApi

/-- An HTTP error as raised by `fastapi.HTTPException`: a status code and a
detail string (serialized by FastAPI as the response body). -/
structure HTTPExc where
  status : Nat
  detail : String
deriving DecidableEq, Repr

/-- `str(e)` for a starlette/fastapi `HTTPException`: `"<status_code>: <detail>"`. -/
def excStr (e : HTTPExc) : String := toString e.status ++ ": " ++ e.detail

/-- The `try: ... except Exception as e: raise HTTPException(400, str(e))`
wrapper that every handler body in `main.py` runs under.  An inner
`HTTPException` is itself an `Exception`, so it is caught and re-raised with
status 400 and the stringified original as detail. -/
def wrapTry {α : Type} (r : Except HTTPExc α) : Except HTTPExc α :=
  match r with
  | Except.ok v => Except.ok v
  | Except.error e => Except.error ⟨400, excStr e⟩

/-- Python truthiness of an optional string (`None` and `""` are falsy). -/
def truthy : Option String → Bool
  | none => false
  | some s => s != ""

/-- `require_admin` from `main.py` (lines 30-35): with `ADMIN_TOKEN` falsy the
gate raises 401 "Admin not configured"; with a falsy or mismatching header it
raises 401 "Invalid admin token"; otherwise it passes (`none`). -/
def requireAdmin (cfg header : Option String) : Option HTTPExc :=
  if !truthy cfg then some ⟨401, "Admin not configured"⟩
  else if !truthy header || header != cfg then some ⟨401, "Invalid admin token"⟩
  else none

/-! ## Stored records and request payloads -/

/-- An article document as stored in the `article` collection. -/
structure StoredArticle where
  ident : Nat
  title : String
  summary : Option String := none
  content : String
  category : String
  region : String
  tags : List String := []
  author : Option String := none
  image_url : Option String := none
  published : Bool := true
  published_at : Option Nat := none
  deleted : Bool := false
  created_at : Option Nat := none
  updated_at : Option Nat := none
deriving DecidableEq, Repr

/-- The `Article` request schema from `schemas.py` (validated creation payload). -/
structure ArticleSchema where
  title : String
  summary : Option String := none
  content : String
  category : String
  region : String
  tags : List String := []
  author : Option String := none
  image_url : Option String := none
  published : Bool := true
  published_at : Option Nat := none
deriving DecidableEq, Repr

/-- The `ArticleUpdate` partial-update payload from `main.py` (lines 168-177). -/
structure ArticleUpdate where
  title : Option String := none
  summary : Option String := none
  content : Option String := none
  category : Option String := none
  region : Option String := none
  tags : Option (List String) := none
  author : Option String := none
  image_url : Option String := none
  published : Option Bool := none
deriving DecidableEq, Repr

/-- A project document as stored in the `project` collection. -/
structure StoredProject where
  ident : Nat
  name : String
  description : String
  link : Option String := none
  tags : List String := []
  status : String := "active"
  created_at : Option Nat := none
  updated_at : Option Nat := none
deriving DecidableEq, Repr

/-- The `Project` request schema from `schemas.py`. -/
structure ProjectSchema where
  name : String
  description : String
  link : Option String := none
  tags : List String := []
  status : String := "active"
deriving DecidableEq, Repr

/-- The `ProjectUpdate` partial-update payload from `main.py` (lines 252-257). -/
structure ProjectUpdate where
  name : Option String := none
  description : Option String := none
  link : Option String := none
  tags : Option (List String) := none
  status : Option String := none
deriving DecidableEq, Repr

/-! ## Generic collection operations (Mongo single-document semantics) -/

/-- Mongo `update_one`: apply `f` to the first record matching `pred`. -/
def updateFirst {α : Type} (pred : α → Bool) (f : α → α) : List α → List α
  | [] => []
  | b :: bs => if pred b then f b :: bs else b :: updateFirst pred f bs

/-- Mongo `delete_one`: remove the first record matching `pred`. -/
def removeFirst {α : Type} (pred : α → Bool) : List α → List α
  | [] => []
  | b :: bs => if pred b then bs else b :: removeFirst pred bs

/-- Descending comparison on an optional sort key; in a Mongo descending sort,
documents with a missing/null key sort after documents with a value. -/
def optGe : Option Nat → Option Nat → Bool
  | some x, some y => decide (y ≤ x)
  | some _, none => true
  | none, some _ => false
  | none, none => true

/-- Insert into a list sorted descending by `key`. -/
def insertDesc {α : Type} (key : α → Option Nat) (a : α) : List α → List α
  | [] => [a]
  | b :: bs => if optGe (key a) (key b) then a :: b :: bs else b :: insertDesc key a bs

/-- Mongo `.sort(field, -1)`: sort descending by `key` (insertion sort). -/
def sortDesc {α : Type} (key : α → Option Nat) : List α → List α
  | [] => []
  | a :: as => insertDesc key a (sortDesc key as)

/-! ## Case-insensitive substring and Mongo `$regex` semantics

`list_articles` and `admin_list_articles` translate the `q` parameter into
`{"$regex": q, "$options": "i"}` filters on `title`/`content`/`summary`.
The database's regex engine (PCRE) is modelled here for the fragment the
claims exercise: literal characters and the `.` wildcard, searched
unanchored and caseless.  A separate, spec-side predicate `containsCI`
captures the spec's words "case-insensitive substring". -/

/-- Caseless character equality (PCRE option `i`). -/
def ciCharEq (a b : Char) : Bool := a.toLower == b.toLower

/-- Does `pat`, read as a caseless literal, match a leading segment of `s`? -/
def headMatchCI : List Char → List Char → Bool
  | [], _ => true
  | _ :: _, [] => false
  | a :: asx, b :: bs => ciCharEq a b && headMatchCI asx bs

/-- Does `pat`, read as a caseless literal, occur anywhere in `s`? -/
def containsCIAux (pat : List Char) : List Char → Bool
  | [] => headMatchCI pat []
  | c :: cs => headMatchCI pat (c :: cs) || containsCIAux pat cs

/-- Spec-side predicate: `pat` occurs case-insensitively as a substring of `s`. -/
def containsCI (pat s : String) : Bool := containsCIAux pat.toList s.toList

/-- PCRE metacharacters: a pattern avoiding all of these is a literal string. -/
def isRegexMeta (c : Char) : Bool :=
  c == '\\' || c == '^' || c == '$' || c == '.' || c == '|' || c == '?' ||
  c == '*' || c == '+' || c == '(' || c == ')' || c == '[' || c == ']' ||
  c == Char.ofNat 123 || c == Char.ofNat 125

/-- One pattern position against one subject character, caseless; `.` matches
any character except a newline (PCRE default, no dotall option). -/
def patCharMatch (p c : Char) : Bool :=
  if p == '.' then !(c == Char.ofNat 10) else ciCharEq p c

/-- Does the regex `pat` (literals and `.`) match a leading segment of `s`? -/
def matchHere : List Char → List Char → Bool
  | [], _ => true
  | _ :: _, [] => false
  | p :: ps, c :: cs => patCharMatch p c && matchHere ps cs

/-- Unanchored regex search: does `pat` match anywhere in the subject? -/
def regexSearchAux (pat : List Char) : List Char → Bool
  | [] => matchHere pat []
  | c :: cs => matchHere pat (c :: cs) || regexSearchAux pat cs

/-- Mongo `{"$regex": pat, "$options": "i"}` on subject `s`, for the regex
fragment of literals and `.`. -/
def regexSearchCI (pat s : String) : Bool := regexSearchAux pat.toList s.toList

/-- Modelled from the spec: `create_document` is defined in `database.py`,
which is not under `src/`; per the spec (§3, §4.1) it performs a single insert
of the given record into the collection and returns the new record's
server-assigned id.  The caller supplies the fresh id and attaches timestamps. -/
def create_document {α : Type} (store : List α) (newId : Nat) (doc : α) :
    Nat × List α :=
  (newId, store ++ [doc])

/-! ## Article handlers (`main.py`) -/

/-- `create_article` (lines 118-129): dump the payload, force `deleted = False`,
set `published_at` to the current time when the article is published and the
payload carried no (truthy) `published_at`, insert, then read the inserted
document back by id.  The `none` branch of the final lookup models the crash
path of serializing a missing document (unreachable when ids are unique). -/
def createArticle (store : List StoredArticle) (art : ArticleSchema)
    (now newId : Nat) : Except HTTPExc StoredArticle × List StoredArticle :=
  let pa := if art.published && art.published_at.isNone then some now
            else art.published_at
  let doc : StoredArticle :=
    { ident := newId, title := art.title, summary := art.summary,
      content := art.content, category := art.category, region := art.region,
      tags := art.tags, author := art.author, image_url := art.image_url,
      published := art.published, published_at := pa, deleted := false,
      created_at := some now, updated_at := some now }
  let st := (create_document store newId doc).2
  match st.find? (fun a => a.ident == newId) with
  | some d => (Except.ok d, st)
  | none => (Except.error ⟨400, "document missing"⟩, st)

/-- Exact-match filter for a truthy optional query parameter (`if region:` /
`if category:` in `list_articles`): `None` or `""` imposes no constraint. -/
def optEqFilter (param : Option String) (field : String) : Bool :=
  match param with
  | none => true
  | some p => if p == "" then true else field == p

/-- The `$or` regex block of `list_articles`/`admin_list_articles`: `q` matches
the document when it regex-matches `title`, `content` or `summary`
case-insensitively; a missing `summary` never matches. -/
def articleQMatch (qs : String) (a : StoredArticle) : Bool :=
  regexSearchCI qs a.title || regexSearchCI qs a.content ||
    (match a.summary with
     | some s => regexSearchCI qs s
     | none => false)

/-- The `if q:` guard: a falsy `q` (`None` or `""`) imposes no constraint. -/
def qFilter (q : Option String) (a : StoredArticle) : Bool :=
  match q with
  | none => true
  | some qs => if qs == "" then true else articleQMatch qs a

/-- The full filter document built by `list_articles` (lines 140-150). -/
def listArticlesFilter (q region category : Option String)
    (a : StoredArticle) : Bool :=
  a.published && !a.deleted && optEqFilter region a.region &&
    optEqFilter category a.category && qFilter q a

/-- `list_articles` (lines 132-154): filter, sort by `published_at`
descending, truncate to `limit`. -/
def listArticles (store : List StoredArticle) (q region category : Option String)
    (lim : Nat) : List StoredArticle :=
  (sortDesc (fun a => a.published_at)
    (store.filter (listArticlesFilter q region category))).take lim

/-- `get_article` (lines 157-165): `find_one` on id plus
`published = True, deleted ≠ True`; a miss raises 404, which the surrounding
`except Exception` re-wraps as 400 (`wrapTry`). -/
def getArticle (store : List StoredArticle) (id : Nat) :
    Except HTTPExc StoredArticle :=
  wrapTry
    (match store.find? (fun a => a.ident == id && a.published && !a.deleted) with
     | some d => Except.ok d
     | none => Except.error ⟨404, "Article not found"⟩)

/-- `{k: v for k, v in payload.model_dump().items() if v is not None}` is empty. -/
def articleUpdateIsEmpty (p : ArticleUpdate) : Bool :=
  p.title.isNone && p.summary.isNone && p.content.isNone && p.category.isNone &&
    p.region.isNone && p.tags.isNone && p.author.isNone && p.image_url.isNone &&
    p.published.isNone

/-- The `$set` document applied by `update_article` (lines 182-189): non-null
payload fields, `updated_at := now`, and — because `ArticleUpdate` has no
`published_at` field, so `setdefault` always inserts — `published_at := now`
whenever the patch carries `published = True`. -/
def applyArticlePatch (p : ArticleUpdate) (now : Nat) (a : StoredArticle) :
    StoredArticle :=
  { a with
    title := p.title.getD a.title,
    summary := match p.summary with | some s => some s | none => a.summary,
    content := p.content.getD a.content,
    category := p.category.getD a.category,
    region := p.region.getD a.region,
    tags := p.tags.getD a.tags,
    author := match p.author with | some s => some s | none => a.author,
    image_url := match p.image_url with | some s => some s | none => a.image_url,
    published := p.published.getD a.published,
    published_at := if p.published.getD false then some now else a.published_at,
    updated_at := some now }

/-- Body of `update_article` (lines 180-195) before the `except` wrapper:
reject an empty patch with 400; `update_one` on id plus `deleted ≠ True`,
404 on no match; then `find_one` on id alone for the response. -/
def updateArticleCore (store : List StoredArticle) (id : Nat)
    (p : ArticleUpdate) (now : Nat) :
    Except HTTPExc StoredArticle × List StoredArticle :=
  if articleUpdateIsEmpty p then
    (Except.error ⟨400, "Nothing to update"⟩, store)
  else
    match store.find? (fun a => a.ident == id && !a.deleted) with
    | none => (Except.error ⟨404, "Article not found"⟩, store)
    | some _ =>
      let st := updateFirst (fun a => a.ident == id && !a.deleted)
        (applyArticlePatch p now) store
      match st.find? (fun a => a.ident == id) with
      | some d => (Except.ok d, st)
      | none => (Except.error ⟨400, "document missing"⟩, st)

/-- `update_article` with its `except Exception` re-wrapping applied. -/
def updateArticle (store : List StoredArticle) (id : Nat) (p : ArticleUpdate)
    (now : Nat) : Except HTTPExc StoredArticle × List StoredArticle :=
  let r := updateArticleCore store id p now
  (wrapTry r.1, r.2)

/-- Body of `delete_article` (lines 198-206): `update_one` on id alone (no
`deleted` filter), setting `deleted = True, published = False` and refreshing
`updated_at`; 404 when the id matches nothing. -/
def deleteArticleCore (store : List StoredArticle) (id now : Nat) :
    Except HTTPExc String × List StoredArticle :=
  match store.find? (fun a => a.ident == id) with
  | none => (Except.error ⟨404, "Article not found"⟩, store)
  | some _ =>
    (Except.ok "ok",
     updateFirst (fun a => a.ident == id)
       (fun a => { a with deleted := true, published := false,
                          updated_at := some now }) store)

/-- `delete_article` with its `except Exception` re-wrapping applied. -/
def deleteArticle (store : List StoredArticle) (id now : Nat) :
    Except HTTPExc String × List StoredArticle :=
  let r := deleteArticleCore store id now
  (wrapTry r.1, r.2)

/-- The `published` filter of `admin_list_articles` (`if published is not None`). -/
def adminPublishedFilter (published : Option Bool) (a : StoredArticle) : Bool :=
  match published with
  | none => true
  | some b => a.published == b

/-- `admin_list_articles` (lines 209-224): exclude deleted, optionally filter
by exact `published`, `q` regex block, sort by `updated_at` descending, cap. -/
def adminListArticles (store : List StoredArticle) (q : Option String)
    (published : Option Bool) (lim : Nat) : List StoredArticle :=
  (sortDesc (fun a => a.updated_at)
    (store.filter (fun a =>
      !a.deleted && adminPublishedFilter published a && qFilter q a))).take lim

/-! ## Project handlers (`main.py`) -/

/-- `create_project` (lines 228-235): insert the validated payload and read it
back by id. -/
def createProject (store : List StoredProject) (proj : ProjectSchema)
    (now newId : Nat) : Except HTTPExc StoredProject × List StoredProject :=
  let doc : StoredProject :=
    { ident := newId, name := proj.name, description := proj.description,
      link := proj.link, tags := proj.tags, status := proj.status,
      created_at := some now, updated_at := some now }
  let st := (create_document store newId doc).2
  match st.find? (fun p => p.ident == newId) with
  | some d => (Except.ok d, st)
  | none => (Except.error ⟨400, "document missing"⟩, st)

/-- The non-null-field check of `update_project`. -/
def projectUpdateIsEmpty (p : ProjectUpdate) : Bool :=
  p.name.isNone && p.description.isNone && p.link.isNone && p.tags.isNone &&
    p.status.isNone

/-- The `$set` document applied by `update_project` (lines 262-266). -/
def applyProjectPatch (p : ProjectUpdate) (now : Nat) (pr : StoredProject) :
    StoredProject :=
  { pr with
    name := p.name.getD pr.name,
    description := p.description.getD pr.description,
    link := match p.link with | some s => some s | none => pr.link,
    tags := p.tags.getD pr.tags,
    status := p.status.getD pr.status,
    updated_at := some now }

/-- Body of `update_project` (lines 260-272) before the `except` wrapper. -/
def updateProjectCore (store : List StoredProject) (id : Nat)
    (p : ProjectUpdate) (now : Nat) :
    Except HTTPExc StoredProject × List StoredProject :=
  if projectUpdateIsEmpty p then
    (Except.error ⟨400, "Nothing to update"⟩, store)
  else
    match store.find? (fun pr => pr.ident == id) with
    | none => (Except.error ⟨404, "Project not found"⟩, store)
    | some _ =>
      let st := updateFirst (fun pr => pr.ident == id)
        (applyProjectPatch p now) store
      match st.find? (fun pr => pr.ident == id) with
      | some d => (Except.ok d, st)
      | none => (Except.error ⟨400, "document missing"⟩, st)

/-- `update_project` with its `except Exception` re-wrapping applied. -/
def updateProject (store : List StoredProject) (id : Nat) (p : ProjectUpdate)
    (now : Nat) : Except HTTPExc StoredProject × List StoredProject :=
  let r := updateProjectCore store id p now
  (wrapTry r.1, r.2)

/-- Body of `delete_project` (lines 275-283): `delete_one` on id; 404 when the
id matches nothing.  Unlike article deletion this removes the record. -/
def deleteProjectCore (store : List StoredProject) (id : Nat) :
    Except HTTPExc String × List StoredProject :=
  match store.find? (fun p => p.ident == id) with
  | none => (Except.error ⟨404, "Project not found"⟩, store)
  | some _ => (Except.ok "ok", removeFirst (fun p => p.ident == id) store)

/-- `delete_project` with its `except Exception` re-wrapping applied. -/
def deleteProject (store : List StoredProject) (id : Nat) :
    Except HTTPExc String × List StoredProject :=
  let r := deleteProjectCore store id
  (wrapTry r.1, r.2)

/-! ## Gated endpoints

Each handler carrying `Depends(require_admin)` runs the gate before its body;
a gate failure becomes the response and the store is untouched. -/

/-- `POST /api/articles` with its admin gate. -/
def createArticleEndpoint (cfg header : Option String)
    (store : List StoredArticle) (art : ArticleSchema) (now newId : Nat) :
    Except HTTPExc StoredArticle × List StoredArticle :=
  match requireAdmin cfg header with
  | some e => (Except.error e, store)
  | none => createArticle store art now newId

/-- `PUT /api/articles/{id}` with its admin gate. -/
def updateArticleEndpoint (cfg header : Option String)
    (store : List StoredArticle) (id : Nat) (p : ArticleUpdate) (now : Nat) :
    Except HTTPExc StoredArticle × List StoredArticle :=
  match requireAdmin cfg header with
  | some e => (Except.error e, store)
  | none => updateArticle store id p now

/-- `DELETE /api/articles/{id}` with its admin gate. -/
def deleteArticleEndpoint (cfg header : Option String)
    (store : List StoredArticle) (id now : Nat) :
    Except HTTPExc String × List StoredArticle :=
  match requireAdmin cfg header with
  | some e => (Except.error e, store)
  | none => deleteArticle store id now

/-- `GET /api/articles/admin` with its admin gate. -/
def adminListEndpoint (cfg header : Option String)
    (store : List StoredArticle) (q : Option String) (published : Option Bool)
    (lim : Nat) : Except HTTPExc (List StoredArticle) :=
  match requireAdmin cfg header with
  | some e => Except.error e
  | none => Except.ok (adminListArticles store q published lim)

/-- `POST /api/projects` with its admin gate. -/
def createProjectEndpoint (cfg header : Option String)
    (store : List StoredProject) (proj : ProjectSchema) (now newId : Nat) :
    Except HTTPExc StoredProject × List StoredProject :=
  match requireAdmin cfg header with
  | some e => (Except.error e, store)
  | none => createProject store proj now newId

/-- `PUT /api/projects/{id}` with its admin gate. -/
def updateProjectEndpoint (cfg header : Option String)
    (store : List StoredProject) (id : Nat) (p : ProjectUpdate) (now : Nat) :
    Except HTTPExc StoredProject × List StoredProject :=
  match requireAdmin cfg header with
  | some e => (Except.error e, store)
  | none => updateProject store id p now

/-- `DELETE /api/projects/{id}` with its admin gate. -/
def deleteProjectEndpoint (cfg header : Option String)
    (store : List StoredProject) (id : Nat) :
    Except HTTPExc String × List StoredProject :=
  match requireAdmin cfg header with
  | some e => (Except.error e, store)
  | none => deleteProject store id

/-! ## RSS preview (`main.py` lines 287-308)

`feedparser.parse` is an external collaborator; its output is modelled as a
`ParsedFeed` handed to the handler. -/

/-- A parsed feed entry; `entry.get(key)` yields `none` for an absent key. -/
structure FeedEntry where
  title : Option String := none
  summary : Option String := none
  subtitle : Option String := none
  link : Option String := none
  published : Option String := none
  updated : Option String := none
deriving DecidableEq, Repr

/-- The result of `feedparser.parse`. -/
structure ParsedFeed where
  feed_title : Option String := none
  entries : List FeedEntry := []
deriving DecidableEq, Repr

/-- One mapped preview item. -/
structure PreviewItem where
  title : Option String
  summary : Option String
  link : Option String
  published : Option String
deriving DecidableEq, Repr

/-- The `RSSRequest` body model (lines 287-292): `max_items` is an
unconstrained `int` defaulting to 10. -/
structure RSSRequest where
  url : String
  max_items : Int := 10
  tag : Option String := none
  region : Option String := none
  category : Option String := none
deriving DecidableEq, Repr

/-- Python's `a or b` on optional strings: `a` unless it is falsy
(`None` or `""`), else `b`. -/
def pyOrStr (a b : Option String) : Option String :=
  if truthy a then a else b

/-- Python's `xs[:k]`: the first `k` items for `k ≥ 0`, all but the last `-k`
items for `k < 0` (clamped at the empty list). -/
def pySliceTo {α : Type} (xs : List α) (k : Int) : List α :=
  if 0 ≤ k then xs.take k.toNat
  else xs.take ((xs.length : Int) + k).toNat

/-- The per-entry mapping of `rss_preview`: `summary` falls back to
`subtitle`, `published` falls back to `updated` (via Python `or`). -/
def rssEntryItem (e : FeedEntry) : PreviewItem :=
  { title := e.title, summary := pyOrStr e.summary e.subtitle,
    link := e.link, published := pyOrStr e.published e.updated }

/-- `rss_preview` (lines 294-308): slice the entries to `max_items` and map
each into a preview item; the response also carries the feed title. -/
def rssPreview (feed : ParsedFeed) (req : RSSRequest) :
    Option String × List PreviewItem :=
  (feed.feed_title, (pySliceTo feed.entries req.max_items).map rssEntryItem)

/-! ## Spec-side predicate and concrete records -/

/-- Spec-side search predicate, following the spec's words for
`GET /api/articles?q=X`: published, non-deleted, matching the region/category
filters, and `X` occurs case-insensitively as a substring of `title`,
`content` or `summary` (a missing `summary` contains nothing). -/
def articleSearchSpec (X : String) (region category : Option String)
    (a : StoredArticle) : Bool :=
  a.published && !a.deleted && optEqFilter region a.region &&
    optEqFilter category a.category &&
    (containsCI X a.title || containsCI X a.content ||
      (match a.summary with
       | some s => containsCI X s
       | none => false))

/-- A concrete published, non-deleted article with `published_at = some 5`. -/
def sampleArticle : StoredArticle :=
  { ident := 1, title := "Alpha news", summary := some "short dek",
    content := "body text", category := "Policy", region := "EU",
    published := true, published_at := some 5, updated_at := some 5 }

/-- A concrete article none of whose text fields contain a literal dot. -/
def dotFreeArticle : StoredArticle :=
  { ident := 4, title := "abc", summary := none, content := "xyz",
    category := "Policy", region := "EU", published := true,
    published_at := some 2 }

/-- A concrete already-soft-deleted article. -/
def sampleDeletedArticle : StoredArticle :=
  { ident := 3, title := "Gone", content := "old", category := "Policy",
    region := "EU", published := false, deleted := true }

/-- A concrete stored project. -/
def sampleProject : StoredProject :=
  { ident := 2, name := "Atlas", description := "A mapping tool" }

/-- A concrete feed entry with every field present. -/
def fullEntry : FeedEntry :=
  { title := some "E1", summary := some "s1", subtitle := some "sub1",
    link := some "l1", published := some "p1", updated := some "u1" }

/-! ## Helper lemmas -/

theorem mem_insertDesc {α : Type} (key : α → Option Nat) (a x : α)
    (l : List α) : x ∈ insertDesc key a l ↔ x = a ∨ x ∈ l := by
  induction l with
  | nil => simp [insertDesc]
  | cons b bs ih =>
    simp only [insertDesc]
    split
    · simp
    · simp [List.mem_cons, ih]
      tauto

theorem mem_sortDesc {α : Type} (key : α → Option Nat) (x : α) (l : List α) :
    x ∈ sortDesc key l ↔ x ∈ l := by
  induction l with
  | nil => simp [sortDesc]
  | cons b bs ih => simp [sortDesc, mem_insertDesc, ih]

theorem length_insertDesc {α : Type} (key : α → Option Nat) (a : α)
    (l : List α) : (insertDesc key a l).length = l.length + 1 := by
  induction l with
  | nil => simp [insertDesc]
  | cons b bs ih =>
    simp only [insertDesc]
    split
    · simp
    · simp [ih]

theorem length_sortDesc {α : Type} (key : α → Option Nat) (l : List α) :
    (sortDesc key l).length = l.length := by
  induction l with
  | nil => simp [sortDesc]
  | cons b bs ih => simp [sortDesc, length_insertDesc, ih]

theorem find?_updateFirst {α : Type} (pred : α → Bool) (f : α → α)
    (l : List α) (a : α) (h : l.find? pred = some a)
    (hf : pred (f a) = true) :
    (updateFirst pred f l).find? pred = some (f a) := by
  induction l with
  | nil => simp [List.find?] at h
  | cons b bs ih =>
    by_cases hb : pred b = true
    · rw [List.find?_cons_of_pos bs hb] at h
      cases h
      simp only [updateFirst, hb, if_true]
      exact List.find?_cons_of_pos bs hf
    · rw [List.find?_cons_of_neg bs hb] at h
      simp only [updateFirst, hb, if_false, Bool.false_eq_true]
      rw [List.find?_cons_of_neg _ hb]
      exact ih h

theorem updateFirst_all {α : Type} (pred : α → Bool) (f : α → α)
    (P : α → Prop) (l : List α) (hc : l.countP pred ≤ 1)
    (hf : ∀ x, pred x = true → P (f x))
    (hn : ∀ x, pred x = false → P x) :
    ∀ y ∈ updateFirst pred f l, P y := by
  induction l with
  | nil => simp [updateFirst]
  | cons b bs ih =>
    intro y hy
    by_cases hb : pred b = true
    · simp only [updateFirst, hb, if_true, List.mem_cons] at hy
      rcases hy with rfl | hmem
      · exact hf b hb
      · rw [List.countP_cons, hb] at hc
        simp at hc
        exact hn y (hc y hmem)
    · simp only [updateFirst, hb, if_false, Bool.false_eq_true,
        List.mem_cons] at hy
      rcases hy with rfl | hmem
      · exact hn y (by simpa using hb)
      · have hc' : bs.countP pred ≤ 1 := by
          rw [List.countP_cons] at hc
          simp [hb] at hc
          omega
        exact ih hc' y hmem

theorem removeFirst_all_not {α : Type} (pred : α → Bool) (l : List α)
    (hc : l.countP pred ≤ 1) :
    ∀ x ∈ removeFirst pred l, pred x = false := by
  induction l with
  | nil => simp [removeFirst]
  | cons b bs ih =>
    intro x hx
    by_cases hb : pred b = true
    · simp only [removeFirst, hb, if_true] at hx
      rw [List.countP_cons, hb] at hc
      simp at hc
      exact hc x hx
    · simp only [removeFirst, hb, if_false, Bool.false_eq_true,
        List.mem_cons] at hx
      rcases hx with rfl | hmem
      · simpa using hb
      · have hc' : bs.countP pred ≤ 1 := by
          rw [List.countP_cons] at hc
          simp [hb] at hc
          omega
        exact ih hc' x hmem

theorem matchHere_eq_headMatchCI (pat : List Char)
    (h : pat.all (fun c => !isRegexMeta c) = true) (s : List Char) :
    matchHere pat s = headMatchCI pat s := by
  induction pat generalizing s with
  | nil => cases s <;> rfl
  | cons p ps ih =>
    cases s with
    | nil => rfl
    | cons c cs =>
      simp only [List.all_cons, Bool.and_eq_true, Bool.not_eq_true'] at h
      have hdot : (p == '.') = false := by
        cases hpd : p == '.' with
        | false => rfl
        | true =>
          exfalso
          have : isRegexMeta p = true := by
            simp [isRegexMeta, hpd]
          rw [this] at h
          exact absurd h.1 (by simp)
      simp only [matchHere, headMatchCI, patCharMatch, hdot,
        Bool.false_eq_true, if_false]
      rw [ih (by simpa using h.2) cs]

theorem regexSearchAux_eq_containsCIAux (pat : List Char)
    (h : pat.all (fun c => !isRegexMeta c) = true) (s : List Char) :
    regexSearchAux pat s = containsCIAux pat s := by
  induction s with
  | nil =>
    simp only [regexSearchAux, containsCIAux]
    exact matchHere_eq_headMatchCI pat h []
  | cons c cs ih =>
    simp only [regexSearchAux, containsCIAux]
    rw [matchHere_eq_headMatchCI pat h (c :: cs), ih]

theorem regexSearchCI_eq_containsCI (pat s : String)
    (h : pat.toList.all (fun c => !isRegexMeta c) = true) :
    regexSearchCI pat s = containsCI pat s :=
  regexSearchAux_eq_containsCIAux pat.toList h s.toList

theorem containsCIAux_nil (s : List Char) : containsCIAux [] s = true := by
  cases s <;> simp [containsCIAux, headMatchCI]

theorem containsCI_empty_pat (s : String) : containsCI "" s = true :=
  containsCIAux_nil s.toList

theorem listArticlesFilter_eq_spec (X : String)
    (region category : Option String)
    (h : X.toList.all (fun c => !isRegexMeta c) = true) (a : StoredArticle) :
    listArticlesFilter (some X) region category a
      = articleSearchSpec X region category a := by
  unfold listArticlesFilter articleSearchSpec qFilter articleQMatch
  by_cases hX : X = ""
  · subst hX
    simp [containsCI_empty_pat]
  · have hX' : (X == "") = false := by simp [hX]
    simp only [hX', Bool.false_eq_true, if_false,
      regexSearchCI_eq_containsCI X a.title h,
      regexSearchCI_eq_containsCI X a.content h]
    cases hs : a.summary with
    | none => rfl
    | some s =>
      simp only [regexSearchCI_eq_containsCI X s h]

/-! ## Claims -/

/-- C1: the claim says a well-formed id matching no published, non-deleted
article yields 404, but `get_article` raises its 404 `HTTPException` inside
the `try` block, whose `except Exception` clause catches it and re-raises
status 400 with detail "404: Article not found".  Evaluated at the failing
input: id 7 against a store whose only article with that id is unpublished. -/
theorem get_article_miss_is_400_not_404 :
    getArticle [{ ident := 7, title := "T", content := "C", category := "k",
                  region := "r", published := false }] 7
      = Except.error ⟨400, "404: Article not found"⟩ := by decide

/-- C2: with `ADMIN_TOKEN` unset, every gated operation — article and project
create, update, delete, and the admin listing — answers 401 "Admin not
configured" and leaves its store untouched, whatever `X-Admin-Token` header
value is supplied: the gate fails closed. -/
theorem gated_ops_fail_closed_when_unconfigured
    (header : Option String) (storeA : List StoredArticle)
    (storeP : List StoredProject) (art : ArticleSchema) (proj : ProjectSchema)
    (id now newId lim : Nat) (pa : ArticleUpdate) (pp : ProjectUpdate)
    (q : Option String) (pub : Option Bool) :
    createArticleEndpoint none header storeA art now newId
        = (Except.error ⟨401, "Admin not configured"⟩, storeA) ∧
    updateArticleEndpoint none header storeA id pa now
        = (Except.error ⟨401, "Admin not configured"⟩, storeA) ∧
    deleteArticleEndpoint none header storeA id now
        = (Except.error ⟨401, "Admin not configured"⟩, storeA) ∧
    adminListEndpoint none header storeA q pub lim
        = Except.error ⟨401, "Admin not configured"⟩ ∧
    createProjectEndpoint none header storeP proj now newId
        = (Except.error ⟨401, "Admin not configured"⟩, storeP) ∧
    updateProjectEndpoint none header storeP id pp now
        = (Except.error ⟨401, "Admin not configured"⟩, storeP) ∧
    deleteProjectEndpoint none header storeP id
        = (Except.error ⟨401, "Admin not configured"⟩, storeP) := by
  have hra : requireAdmin none header = some ⟨401, "Admin not configured"⟩ := by
    simp [requireAdmin, truthy]
  refine ⟨?_, ?_, ?_, ?_, ?_, ?_, ?_⟩ <;>
    simp [createArticleEndpoint, updateArticleEndpoint, deleteArticleEndpoint,
      adminListEndpoint, createProjectEndpoint, updateProjectEndpoint,
      deleteProjectEndpoint, hra]

/-- C3 counterexample: with supplied token "x", the gate's response when no
token is configured is NOT identical to its response when secret "secret" is
configured: both are 401 but the bodies differ ("Admin not configured" versus
"Invalid admin token"), and the full gated create-article responses differ
accordingly — refuting the claimed two-run indistinguishability. -/
theorem auth_responses_distinguishable_cex :
    requireAdmin none (some "x") = some ⟨401, "Admin not configured"⟩ ∧
    requireAdmin (some "secret") (some "x")
        = some ⟨401, "Invalid admin token"⟩ ∧
    requireAdmin none (some "x") ≠ requireAdmin (some "secret") (some "x") ∧
    (createArticleEndpoint none (some "x") []
        { title := "t", content := "c", category := "k", region := "r" } 0 1).1
      ≠ (createArticleEndpoint (some "secret") (some "x") []
        { title := "t", content := "c", category := "k", region := "r" } 0 1).1
    := by decide

/-- C3 amended: for any supplied token that mismatches a configured non-empty
secret, the unconfigured-gate response and the mismatch response carry the
same status 401 but different bodies ("Admin not configured" versus "Invalid
admin token"), so the caller can learn whether a token was configured. -/
theorem auth_both_401_but_details_differ (c : String) (h : Option String)
    (hc : c ≠ "") (hm : h ≠ some c) :
    ∃ e1 e2 : HTTPExc,
      requireAdmin none h = some e1 ∧ requireAdmin (some c) h = some e2 ∧
      e1.status = e2.status ∧ e1.detail ≠ e2.detail := by
  refine ⟨⟨401, "Admin not configured"⟩, ⟨401, "Invalid admin token"⟩,
    ?_, ?_, rfl, by decide⟩
  · simp [requireAdmin, truthy]
  · simp only [requireAdmin, truthy]
    cases h with
    | none => simp [hc]
    | some s =>
      by_cases hs : s = ""
      · subst hs
        simp [hc]
      · have hsc : s ≠ c := fun e => hm (by rw [e])
        simp [hc, hs, hsc]

theorem auth_both_401_but_details_differ_witness :
    ∃ e1 e2 : HTTPExc,
      requireAdmin none (some "x") = some e1 ∧
      requireAdmin (some "secret") (some "x") = some e2 ∧
      e1.status = e2.status ∧ e1.detail ≠ e2.detail :=
  auth_both_401_but_details_differ "secret" (some "x") (by decide) (by decide)

/-- C5: a PUT whose body carries no non-null field is rejected with status 400
(detail "400: Nothing to update" after the except-wrapper) and the store —
hence every stored record, `updated_at` included — is returned exactly as it
was: no write is performed. -/
theorem update_article_empty_patch_400_no_write
    (store : List StoredArticle) (id now : Nat) (p : ArticleUpdate)
    (hE : articleUpdateIsEmpty p = true) :
    updateArticle store id p now
      = (Except.error ⟨400, "400: Nothing to update"⟩, store) := by
  simp [updateArticle, updateArticleCore, hE, wrapTry, excStr]
  rfl

theorem update_article_empty_patch_400_no_write_witness :
    updateArticle [sampleArticle] 1 {} 9
      = (Except.error ⟨400, "400: Nothing to update"⟩, [sampleArticle]) :=
  update_article_empty_patch_400_no_write [sampleArticle] 1 9 {} (by decide)

/-- C4 counterexample: article 1 already has `published_at = some 5`; a PUT
carrying `published = true` processed at time 7 rewrites the stored
`published_at` to `some 7 ≠ some 5`, so a set `published_at` is not left
unchanged by a re-publishing update. -/
theorem republish_overwrites_published_at_cex :
    (((updateArticle [sampleArticle] 1 { published := some true } 7).2.find?
          (fun a => a.ident == 1)).map (fun a => a.published_at))
      = some (some 7) ∧ some (7 : Nat) ≠ some 5 := by decide

/-- C4 amended: because `ArticleUpdate` has no `published_at` field, the
`setdefault` in `update_article` always inserts one: whenever a patch carries
`published = true` and matches a live article, the stored `published_at` is
set to the request time, overwriting any previously stored value — it is not
write-once. -/
theorem republish_always_resets_published_at
    (store : List StoredArticle) (id now : Nat) (p : ArticleUpdate)
    (a : StoredArticle) (hp : p.published = some true)
    (hF : store.find? (fun x => x.ident == id && !x.deleted) = some a) :
    (updateArticle store id p now).2.find?
        (fun x => x.ident == id && !x.deleted)
      = some (applyArticlePatch p now a) ∧
    (applyArticlePatch p now a).published_at = some now := by
  have hne : articleUpdateIsEmpty p = false := by
    simp [articleUpdateIsEmpty, hp]
  have hpred : (fun x => x.ident == id && !x.deleted)
      (applyArticlePatch p now a) = true := by
    have hpa := List.find?_some hF
    simpa [applyArticlePatch] using hpa
  have hst2 : (updateArticle store id p now).2
      = updateFirst (fun x => x.ident == id && !x.deleted)
          (applyArticlePatch p now) store := by
    simp only [updateArticle, updateArticleCore, hne, Bool.false_eq_true,
      if_false, hF]
    cases hd : (updateFirst (fun x => x.ident == id && !x.deleted)
        (applyArticlePatch p now) store).find? (fun x => x.ident == id) <;>
      simp [hd]
  constructor
  · rw [hst2]
    exact find?_updateFirst _ _ _ _ hF hpred
  · simp [applyArticlePatch, hp]

/-- C6: soft-deleting an article (id unique in the store) succeeds with
`{"status": "ok"}` and marks the stored record `deleted = true,
published = false`; afterwards no element of any `GET /api/articles` listing,
of the single-article fetch, or of any `GET /api/articles/admin` listing
carries that id, while a direct store lookup by id alone still finds the
record. -/
theorem soft_delete_hides_article
    (store : List StoredArticle) (id now : Nat) (a : StoredArticle)
    (hF : store.find? (fun x => x.ident == id) = some a)
    (hc : store.countP (fun x => x.ident == id) ≤ 1) :
    (deleteArticle store id now).1 = Except.ok "ok" ∧
    ((deleteArticle store id now).2.find? (fun x => x.ident == id)).map
        (fun d => (d.deleted, d.published)) = some (true, false) ∧
    (∀ q region category lim x,
        x ∈ listArticles (deleteArticle store id now).2 q region category lim →
        (x.ident == id) = false) ∧
    getArticle (deleteArticle store id now).2 id
        = Except.error ⟨400, "404: Article not found"⟩ ∧
    (∀ q pub lim x,
        x ∈ adminListArticles (deleteArticle store id now).2 q pub lim →
        (x.ident == id) = false) := by
  have hst2 : (deleteArticle store id now).2
      = updateFirst (fun x => x.ident == id)
          (fun x => { x with deleted := true, published := false,
                             updated_at := some now }) store := by
    simp only [deleteArticle, deleteArticleCore, hF]
  have hAll : ∀ y ∈ updateFirst (fun x => x.ident == id)
      (fun x => { x with deleted := true, published := false,
                         updated_at := some now }) store,
      (y.ident == id) = true → y.deleted = true := by
    refine updateFirst_all _ _ _ store hc ?_ ?_
    · intro x _ _
      rfl
    · intro x hpx hx
      rw [hpx] at hx
      exact absurd hx (by decide)
  refine ⟨?_, ?_, ?_, ?_, ?_⟩
  · simp only [deleteArticle, deleteArticleCore, hF, wrapTry]
  · have hpa := List.find?_some hF
    have hpredf : (fun x : StoredArticle => x.ident == id)
        ({ a with deleted := true, published := false,
                  updated_at := some now }) = true := by simpa using hpa
    rw [hst2, find?_updateFirst _ _ store a hF hpredf]
    rfl
  · intro q region category lim x hx
    rw [hst2] at hx
    have hx1 := List.mem_of_mem_take hx
    rw [mem_sortDesc, List.mem_filter] at hx1
    obtain ⟨hmem, hflt⟩ := hx1
    have hdel : x.deleted = false := by
      simp only [listArticlesFilter, Bool.and_eq_true, Bool.not_eq_true']
        at hflt
      exact hflt.1.1.1.2
    cases hxi : x.ident == id with
    | false => rfl
    | true =>
      rw [hAll x hmem hxi] at hdel
      exact absurd hdel (by decide)
  · rw [hst2]
    have hnone : (updateFirst (fun x => x.ident == id)
        (fun x => { x with deleted := true, published := false,
                           updated_at := some now }) store).find?
        (fun x => x.ident == id && x.published && !x.deleted) = none := by
      rw [List.find?_eq_none]
      intro x hxmem hcontra
      simp only [Bool.and_eq_true, Bool.not_eq_true'] at hcontra
      obtain ⟨⟨hxi, _⟩, hxd⟩ := hcontra
      rw [hAll x hxmem hxi] at hxd
      exact absurd hxd (by decide)
    simp only [getArticle, hnone, wrapTry]
    rfl
  · intro q pub lim x hx
    rw [hst2] at hx
    have hx1 := List.mem_of_mem_take hx
    rw [mem_sortDesc, List.mem_filter] at hx1
    obtain ⟨hmem, hflt⟩ := hx1
    have hdel : x.deleted = false := by
      simp only [Bool.and_eq_true, Bool.not_eq_true'] at hflt
      exact hflt.1.1
    cases hxi : x.ident == id with
    | false => rfl
    | true =>
      rw [hAll x hmem hxi] at hdel
      exact absurd hdel (by decide)

theorem soft_delete_hides_article_witness :
    (deleteArticle [sampleArticle] 1 9).1 = Except.ok "ok" ∧
    ((deleteArticle [sampleArticle] 1 9).2.find? (fun x => x.ident == 1)).map
        (fun d => (d.deleted, d.published)) = some (true, false) ∧
    (∀ q region category lim x,
        x ∈ listArticles (deleteArticle [sampleArticle] 1 9).2 q region
          category lim → (x.ident == 1) = false) ∧
    getArticle (deleteArticle [sampleArticle] 1 9).2 1
        = Except.error ⟨400, "404: Article not found"⟩ ∧
    (∀ q pub lim x,
        x ∈ adminListArticles (deleteArticle [sampleArticle] 1 9).2 q pub lim →
        (x.ident == 1) = false) :=
  soft_delete_hides_article [sampleArticle] 1 9 sampleArticle (by decide)
    (by decide)

theorem republish_always_resets_published_at_witness :
    (updateArticle [sampleArticle] 1 { published := some true } 7).2.find?
        (fun x => x.ident == 1 && !x.deleted)
      = some (applyArticlePatch { published := some true } 7 sampleArticle) ∧
    (applyArticlePatch { published := some true } 7 sampleArticle).published_at
      = some 7 :=
  republish_always_resets_published_at [sampleArticle] 1 7
    { published := some true } sampleArticle (by decide) (by decide)

/-- C7 counterexample: `q` is handed to the database as a regex, not a
literal: for the query "." the article whose fields are "abc"/"xyz" (no dot
anywhere, summary absent) is returned by `GET /api/articles?q=.` although "."
occurs in none of its fields as a substring, case-insensitively or not. -/
theorem list_articles_regex_dot_cex :
    dotFreeArticle ∈ listArticles [dotFreeArticle] (some ".") none none 24 ∧
    articleSearchSpec "." none none dotFreeArticle = false := by decide

/-- C7 amended: the query is matched as a case-insensitive regex; for query
strings free of regex metacharacters this coincides with case-insensitive
substring containment, and then — whenever every match fits within the
limit — the listing returns exactly the published, non-deleted articles for
which `X` occurs case-insensitively in title, content or summary, conjoined
with the region/category filters. -/
theorem list_articles_q_exact_for_plain_strings
    (store : List StoredArticle) (X : String)
    (region category : Option String) (lim : Nat)
    (hplain : X.toList.all (fun c => !isRegexMeta c) = true)
    (hfits : (store.filter
        (listArticlesFilter (some X) region category)).length ≤ lim)
    (a : StoredArticle) :
    a ∈ listArticles store (some X) region category lim ↔
      a ∈ store ∧ articleSearchSpec X region category a = true := by
  unfold listArticles
  rw [List.take_of_length_le (by rw [length_sortDesc]; exact hfits)]
  rw [mem_sortDesc, List.mem_filter,
    listArticlesFilter_eq_spec X region category hplain a]

theorem list_articles_q_exact_for_plain_strings_witness :
    sampleArticle ∈ listArticles [sampleArticle] (some "ALPHA") none none 24 ↔
      sampleArticle ∈ [sampleArticle] ∧
        articleSearchSpec "ALPHA" none none sampleArticle = true :=
  list_articles_q_exact_for_plain_strings [sampleArticle] "ALPHA" none none 24
    (by decide) (by decide) sampleArticle

theorem createArticle_ok (store : List StoredArticle) (art : ArticleSchema)
    (now newId : Nat)
    (hfresh : store.find? (fun a => a.ident == newId) = none) :
    (createArticle store art now newId).1 = Except.ok
      { ident := newId, title := art.title, summary := art.summary,
        content := art.content, category := art.category,
        region := art.region, tags := art.tags, author := art.author,
        image_url := art.image_url, published := art.published,
        published_at := if art.published && art.published_at.isNone
                        then some now else art.published_at,
        deleted := false, created_at := some now,
        updated_at := some now } := by
  simp only [createArticle, create_document, List.find?_append, hfresh,
    Option.none_or]
  rw [List.find?_cons_of_pos _ (by simp)]

/-- C8: creating an article under a fresh id with `published = true` and no
`published_at` in the payload stores `published_at = some t` with
`now ≤ t` (a timestamp at or after the request time); creating with
`published = false` leaves the stored `published_at` absent. -/
theorem create_article_published_at
    (store : List StoredArticle) (art : ArticleSchema) (now newId : Nat)
    (hfresh : store.find? (fun a => a.ident == newId) = none)
    (hpa : art.published_at = none) :
    (art.published = true →
      ∃ d t, (createArticle store art now newId).1 = Except.ok d ∧
        d.published_at = some t ∧ now ≤ t) ∧
    (art.published = false →
      ∃ d, (createArticle store art now newId).1 = Except.ok d ∧
        d.published_at = none) := by
  constructor
  · intro hp
    refine ⟨_, now, createArticle_ok store art now newId hfresh, ?_,
      le_refl now⟩
    simp [hp, hpa]
  · intro hp
    refine ⟨_, createArticle_ok store art now newId hfresh, ?_⟩
    simp [hp, hpa]

theorem create_article_published_at_witness :
    (ArticleSchema.published
        { title := "t", content := "c", category := "k", region := "r" }
       = true →
      ∃ d t, (createArticle []
          { title := "t", content := "c", category := "k", region := "r" }
          5 1).1 = Except.ok d ∧ d.published_at = some t ∧ 5 ≤ t) ∧
    (ArticleSchema.published
        { title := "t", content := "c", category := "k", region := "r" }
       = false →
      ∃ d, (createArticle []
          { title := "t", content := "c", category := "k", region := "r" }
          5 1).1 = Except.ok d ∧ d.published_at = none) :=
  create_article_published_at []
    { title := "t", content := "c", category := "k", region := "r" } 5 1
    (by decide) (by decide)

/-- C9 counterexample: `max_items` is an unconstrained `int`, and a negative
value acts as a Python slice bound: with two entries and `max_items = -1`
the preview returns one item, and one item is not "at most max_items". -/
theorem rss_preview_negative_cap_cex :
    ((rssPreview { entries := [fullEntry, fullEntry] }
        { url := "u", max_items := -1 }).2.length : Int) = 1 ∧
    ¬ (((rssPreview { entries := [fullEntry, fullEntry] }
        { url := "u", max_items := -1 }).2.length : Int) ≤ -1) := by decide

/-- C9 amended: for every parsed feed and every `max_items ≥ 0` the preview
returns at most `max_items` items — the first `max_items` entries, each
mapped to {title, summary, link, published} — where `summary` falls back to
the entry's `subtitle` when `summary` is absent and `published` falls back
to the entry's `updated` when `published` is absent. -/
theorem rss_preview_cap_and_fallbacks (feed : ParsedFeed) (req : RSSRequest)
    (h : 0 ≤ req.max_items) :
    ((rssPreview feed req).2.length : Int) ≤ req.max_items ∧
    (rssPreview feed req).2
      = (feed.entries.take req.max_items.toNat).map rssEntryItem ∧
    (∀ e : FeedEntry, e.summary = none →
      (rssEntryItem e).summary = e.subtitle) ∧
    (∀ e : FeedEntry, e.published = none →
      (rssEntryItem e).published = e.updated) := by
  have h2 : (rssPreview feed req).2
      = (feed.entries.take req.max_items.toNat).map rssEntryItem := by
    simp [rssPreview, pySliceTo, h]
  refine ⟨?_, h2, ?_, ?_⟩
  · rw [h2]
    have hlen : ((feed.entries.take req.max_items.toNat).map
        rssEntryItem).length ≤ req.max_items.toNat := by
      simp only [List.length_map, List.length_take]
      exact min_le_left _ _
    calc (((feed.entries.take req.max_items.toNat).map
          rssEntryItem).length : Int)
        ≤ (req.max_items.toNat : Int) := by exact_mod_cast hlen
      _ = req.max_items := Int.toNat_of_nonneg h
  · intro e he
    simp [rssEntryItem, pyOrStr, he, truthy]
  · intro e he
    simp [rssEntryItem, pyOrStr, he, truthy]

theorem rss_preview_cap_and_fallbacks_witness :
    ((rssPreview { entries := [fullEntry] } { url := "u" }).2.length : Int)
        ≤ RSSRequest.max_items { url := "u" } ∧
    (rssPreview { entries := [fullEntry] } { url := "u" }).2
      = (([fullEntry] : List FeedEntry).take
          (RSSRequest.max_items { url := "u" }).toNat).map rssEntryItem ∧
    (∀ e : FeedEntry, e.summary = none →
      (rssEntryItem e).summary = e.subtitle) ∧
    (∀ e : FeedEntry, e.published = none →
      (rssEntryItem e).published = e.updated) :=
  rss_preview_cap_and_fallbacks { entries := [fullEntry] } { url := "u" }
    (by decide)

/-- C10: soft-delete of an article is idempotent — the delete filter is
id-only, so an already-deleted article still matches, the handler answers ok
and the record stays `deleted = true, published = false` — whereas a project
delete removes the record, so after one delete the id matches nothing and a
second delete answers the no-match error. -/
theorem delete_article_idempotent_project_delete_not
    (storeA : List StoredArticle) (id now : Nat) (a : StoredArticle)
    (hF : storeA.find? (fun x => x.ident == id) = some a)
    (_hd : a.deleted = true)
    (storeP : List StoredProject) (pid : Nat)
    (hcp : storeP.countP (fun p => p.ident == pid) ≤ 1) :
    (deleteArticle storeA id now).1 = Except.ok "ok" ∧
    ((deleteArticle storeA id now).2.find? (fun x => x.ident == id)).map
        (fun d => (d.deleted, d.published)) = some (true, false) ∧
    (deleteProject storeP pid).2.find? (fun p => p.ident == pid) = none ∧
    (deleteProject (deleteProject storeP pid).2 pid).1
      = Except.error ⟨400, "404: Project not found"⟩ := by
  have hp3 : (deleteProject storeP pid).2.find? (fun p => p.ident == pid)
      = none := by
    cases hf : storeP.find? (fun p => p.ident == pid) with
    | none =>
      simp [deleteProject, deleteProjectCore, hf]
    | some p0 =>
      simp only [deleteProject, deleteProjectCore, hf]
      rw [List.find?_eq_none]
      intro x hx hcontra
      have hno := removeFirst_all_not _ storeP hcp x hx
      simp only [hno] at hcontra
      exact absurd hcontra (by decide)
  refine ⟨?_, ?_, hp3, ?_⟩
  · simp only [deleteArticle, deleteArticleCore, hF, wrapTry]
  · have hpa := List.find?_some hF
    have hpredf : (fun x : StoredArticle => x.ident == id)
        ({ a with deleted := true, published := false,
                  updated_at := some now }) = true := by simpa using hpa
    have hst2 : (deleteArticle storeA id now).2
        = updateFirst (fun x => x.ident == id)
            (fun x => { x with deleted := true, published := false,
                               updated_at := some now }) storeA := by
      simp only [deleteArticle, deleteArticleCore, hF]
    rw [hst2, find?_updateFirst _ _ storeA a hF hpredf]
    rfl
  · generalize hst : (deleteProject storeP pid).2 = st2 at hp3 ⊢
    simp only [deleteProject, deleteProjectCore, hp3, wrapTry]
    rfl

theorem delete_article_idempotent_project_delete_not_witness :
    (deleteArticle [sampleDeletedArticle] 3 9).1 = Except.ok "ok" ∧
    ((deleteArticle [sampleDeletedArticle] 3 9).2.find?
        (fun x => x.ident == 3)).map (fun d => (d.deleted, d.published))
      = some (true, false) ∧
    (deleteProject [sampleProject] 2).2.find? (fun p => p.ident == 2)
      = none ∧
    (deleteProject (deleteProject [sampleProject] 2).2 2).1
      = Except.error ⟨400, "404: Project not found"⟩ :=
  delete_article_idempotent_project_delete_not [sampleDeletedArticle] 3 9
    sampleDeletedArticle (by decide) (by decide) [sampleProject] 2 (by decide)

end NewsApi
